import Mathlib

/-!
Verification development for `afs/extract_download_data.py`: the download-event
classification and aggregation engine.  Python strings are modelled as Lean
`String`s (lines are taken without their trailing newline, which no operation of
the script observes), machine integers as `Int`/`Nat`, Python exceptions as an
explicit `Except` error type, and the compiled `re` patterns as terms of a small
regular-expression AST evaluated by a backtracking matcher with Python's
leftmost/greedy semantics.  `datetime` arithmetic is modelled in a fixed-offset
(UTC) timezone: a calendar day is identified with the epoch second of its
midnight, and civil-date conversion uses the standard days-from-civil algorithm.
-/

/-! ## Python string primitives -/

/-- Python whitespace test (the characters relevant to these inputs). -/
def pyWS (c : Char) : Bool := c = ' ' || c = '\t' || c = '\n' || c = '\r'

/-- Python `str.rstrip()`. -/
def pyRstrip (s : String) : String :=
  String.mk (((s.data.reverse).dropWhile pyWS).reverse)

/-- Python `str.strip()`. -/
def pyStrip (s : String) : String :=
  String.mk ((((s.data.dropWhile pyWS).reverse).dropWhile pyWS).reverse)

/-- Helper for `str.split()` (no separator): accumulates the current word. -/
def splitWSAux : List Char → List Char → List String
  | acc, [] => if acc.isEmpty then [] else [String.mk acc.reverse]
  | acc, c :: t =>
    if pyWS c then
      if acc.isEmpty then splitWSAux [] t
      else String.mk acc.reverse :: splitWSAux [] t
    else splitWSAux (c :: acc) t

/-- Python `str.split()` with no argument: split on whitespace runs, dropping empties. -/
def splitWS (s : String) : List String := splitWSAux [] s.data

/-- Helper for `str.split(sep)` with a one-character separator. -/
def chSplit (sep : Char) : List Char → List (List Char)
  | [] => [[]]
  | c :: t =>
    match chSplit sep t with
    | [] => [[]]
    | h :: r => if c = sep then [] :: h :: r else (c :: h) :: r

/-- Python `str.split(sep)` for a single-character separator (keeps empty fields). -/
def pySplit (s : String) (sep : Char) : List String :=
  (chSplit sep s.data).map String.mk

/-- Python `sep.join(parts)`. -/
def pyJoin (sep : String) : List String → String
  | [] => ""
  | [x] => x
  | x :: xs => x ++ sep ++ pyJoin sep xs

/-- Python `str.startswith(needle)`. -/
def pyStarts (s pre : String) : Bool := List.isPrefixOf pre.data s.data

/-- Helper for substring containment. -/
def containsChars (needle : List Char) : List Char → Bool
  | [] => List.isPrefixOf needle []
  | c :: t => List.isPrefixOf needle (c :: t) || containsChars needle t

/-- Python `needle in hay` on strings. -/
def pyContains (hay needle : String) : Bool := containsChars needle.data hay.data

/-- Python `s[:n]` on strings. -/
def strTake (s : String) (n : Nat) : String := String.mk (s.data.take n)

/-- Python `str.lower()` (ASCII, which is all these inputs contain). -/
def pyLower (s : String) : String := String.mk (s.data.map Char.toLower)

/-- Digits-only parse of a nonempty digit string. -/
def digitsToNat : List Char → Option Nat
  | [] => none
  | l => if l.all Char.isDigit then some (l.foldl (fun n c => 10 * n + (c.toNat - '0'.toNat)) 0) else none

/-- Python `int(str)`: optional sign followed by digits (raises `ValueError`,
here `none`, otherwise). -/
def pyInt? (s : String) : Option Int :=
  match s.data with
  | '-' :: rest => (digitsToNat rest).map (fun n => -(n : Int))
  | '+' :: rest => (digitsToNat rest).map (fun n => (n : Int))
  | l => (digitsToNat l).map (fun n => (n : Int))

/-! ## Regular expressions

A small AST covering the constructs used by the script's patterns, with a
CPS backtracking matcher.  Alternation prefers the left branch and `star`/`opt`
are greedy, matching Python `re` semantics; `fuel` only bounds iterations of
`star` and is always instantiated large enough that it is never exhausted for
the non-nullable bodies these patterns use. -/

inductive RE where
  | eps
  | lit (c : Char)
  | cls (p : Char → Bool)
  | anyc
  | seq (a b : RE)
  | alt (a b : RE)
  | star (a : RE)
  | group (i : Nat) (a : RE)
  | bol
  | eol

/-- Capture environment: group index to matched substring. -/
abbrev Caps := List (Nat × String)

/-- Greedy Kleene-star driver: try one more iteration of the body first, fall
back to exiting the loop. -/
def reStar (body : List Char → Caps → (List Char → Caps → Option Caps) → Option Caps) :
    Nat → List Char → Caps → (List Char → Caps → Option Caps) → Option Caps
  | 0, s, caps, k => k s caps
  | f + 1, s, caps, k =>
    (body s caps (fun s' c' => reStar body f s' c' k)).orElse (fun _ => k s caps)

/-- Backtracking matcher.  `origLen` is the length of the whole subject (for
the `^` anchor), `k` the continuation receiving the remaining input and the
captures accumulated so far. -/
def reM (origLen fuel : Nat) : RE → List Char → Caps → (List Char → Caps → Option Caps) → Option Caps
  | RE.eps, s, caps, k => k s caps
  | RE.lit _, [], _, _ => none
  | RE.lit c, a :: rest, caps, k => if a = c then k rest caps else none
  | RE.cls _, [], _, _ => none
  | RE.cls p, a :: rest, caps, k => if p a then k rest caps else none
  | RE.anyc, [], _, _ => none
  | RE.anyc, _ :: rest, caps, k => k rest caps
  | RE.seq r1 r2, s, caps, k =>
    reM origLen fuel r1 s caps (fun s' c' => reM origLen fuel r2 s' c' k)
  | RE.alt r1 r2, s, caps, k =>
    (reM origLen fuel r1 s caps k).orElse (fun _ => reM origLen fuel r2 s caps k)
  | RE.star r, s, caps, k =>
    reStar (fun s' c' k' => reM origLen fuel r s' c' k') fuel s caps k
  | RE.group i r, s, caps, k =>
    reM origLen fuel r s caps
      (fun s' c' => k s' ((i, String.mk (s.take (s.length - s'.length))) :: c'))
  | RE.bol, s, caps, k => if s.length = origLen then k s caps else none
  | RE.eol, [], caps, k => k [] caps
  | RE.eol, _ :: _, _, _ => none

/-- Python `pattern.match(s)`: anchored at the start, returns captures on success. -/
def reMatchCaps (r : RE) (s : String) : Option Caps :=
  reM s.data.length (s.data.length + 32) r s.data [] (fun _ c => some c)

/-- Try a match at every start position (leftmost-first). -/
def reSearchPos (origLen fuel : Nat) (r : RE) : List Char → Bool
  | [] => (reM origLen fuel r [] [] (fun _ c => some c)).isSome
  | c :: t =>
    (reM origLen fuel r (c :: t) [] (fun _ c' => some c')).isSome ||
      reSearchPos origLen fuel r t

/-- Python `pattern.search(s) is not None`. -/
def reSearch (r : RE) (s : String) : Bool :=
  reSearchPos s.data.length (s.data.length + 32) r s.data

/-- Python `match.group(i)`. -/
def getGrp (caps : Caps) (i : Nat) : String := (List.lookup i caps).getD ""

/-! ### Pattern builders -/

/-- A literal string pattern. -/
def rstr (s : String) : RE := s.data.foldr (fun c r => RE.seq (RE.lit c) r) RE.eps

/-- Concatenation of a list of patterns. -/
def rcat (l : List RE) : RE := l.foldr RE.seq RE.eps

/-- Pattern `r?` (greedy). -/
def ropt (r : RE) : RE := RE.alt r RE.eps

/-- Pattern `r+`. -/
def rplus (r : RE) : RE := RE.seq r (RE.star r)

/-- A character class listing its members. -/
def rclass (cs : String) : RE := RE.cls (fun c => cs.data.contains c)

/-- Pattern `\d`. -/
def rdig : RE := RE.cls Char.isDigit

/-- Pattern `[\d.]`. -/
def rDD : RE := RE.cls (fun c => c.isDigit || c = '.')

/-- The version capture `([\d.]+\d)` shared by the filename regexes (group 1). -/
def verGroup : RE := RE.group 1 (RE.seq (rplus rDD) rdig)

/-- The `h?t?` prelude of the condor filename regexes. -/
def rHT : List RE := [ropt (RE.lit 'h'), ropt (RE.lit 't')]

/-! ### The script's compiled regexes -/

/-- Source `re_binary = h?t?condor-([\d.]+\d)(?:_preview)?[-.](.*)` -/
def re_binary : RE :=
  rcat (rHT ++ [rstr "condor-", verGroup, ropt (rstr "_preview"), rclass "-.",
    RE.group 2 (RE.star RE.anyc)])

/-- Source `re_source = h?t?condor_src-([\d.]+\d)(?:_preview)?[-.](.*)` -/
def re_source : RE :=
  rcat (rHT ++ [rstr "condor_src-", verGroup, ropt (rstr "_preview"), rclass "-.",
    RE.group 2 (RE.star RE.anyc)])

/-- Source `re_binary_deb = h?t?condor_([\d.]+\d)-(.*\.deb)` -/
def re_binary_deb : RE :=
  rcat (rHT ++ [rstr "condor_", verGroup, RE.lit '-',
    RE.group 2 (RE.seq (RE.star RE.anyc) (rstr ".deb"))])

/-- Source `re_source_deb = h?t?condor_([\d.]+\d)\..*(orig|debian)\.tar\.[xg]z` -/
def re_source_deb : RE :=
  rcat (rHT ++ [rstr "condor_", verGroup, RE.lit '.', RE.star RE.anyc,
    RE.group 2 (RE.alt (rstr "orig") (rstr "debian")), rstr ".tar.", rclass "xg", RE.lit 'z'])

/-- Source `re_rpm = /.*/h?t?condor-([\d.]+\d)-.*\.(x86_64|i386|i686|ia64)\.rpm \((\d+) hits?\)` -/
def re_rpm : RE :=
  rcat ([RE.lit '/', RE.star RE.anyc, RE.lit '/'] ++ rHT ++
    [rstr "condor-", verGroup, RE.lit '-', RE.star RE.anyc, RE.lit '.',
     RE.group 2 (RE.alt (rstr "x86_64") (RE.alt (rstr "i386") (RE.alt (rstr "i686") (rstr "ia64")))),
     rstr ".rpm (", RE.group 3 (rplus rdig), rstr " hit", ropt (RE.lit 's'), RE.lit ')'])

/-- Source `re_src_rpm = /.*/h?t?condor-([\d.]+\d)-(.*)\.src\.rpm \((\d+) hits?\)` -/
def re_src_rpm : RE :=
  rcat ([RE.lit '/', RE.star RE.anyc, RE.lit '/'] ++ rHT ++
    [rstr "condor-", verGroup, RE.lit '-', RE.group 2 (RE.star RE.anyc),
     rstr ".src.rpm (", RE.group 3 (rplus rdig), rstr " hit", ropt (RE.lit 's'), RE.lit ')'])

/-- Source `re_deb = /.*/h?t?condor[_-]([\d.]+\d)-.*_(amd64|i386|all)\.deb \((\d+) hits?\)` -/
def re_deb : RE :=
  rcat ([RE.lit '/', RE.star RE.anyc, RE.lit '/'] ++ rHT ++
    [rstr "condor", rclass "_-", verGroup, RE.lit '-', RE.star RE.anyc, RE.lit '_',
     RE.group 2 (RE.alt (rstr "amd64") (RE.alt (rstr "i386") (rstr "all"))),
     rstr ".deb (", RE.group 3 (rplus rdig), rstr " hit", ropt (RE.lit 's'), RE.lit ')'])

/-- Source `re_src_deb = /.*/h?t?condor[_-]([\d.]+\d)-.*\.(orig|debian)\.tar\.[xg]z \((\d+) hits?\)` -/
def re_src_deb : RE :=
  rcat ([RE.lit '/', RE.star RE.anyc, RE.lit '/'] ++ rHT ++
    [rstr "condor", rclass "_-", verGroup, RE.lit '-', RE.star RE.anyc, RE.lit '.',
     RE.group 2 (RE.alt (rstr "orig") (rstr "debian")), rstr ".tar.", rclass "xg", RE.lit 'z',
     rstr " (", RE.group 3 (rplus rdig), rstr " hit", ropt (RE.lit 's'), RE.lit ')'])

/-- Source `re_tarball = /.*/tarball/.*/(h?t?condor[-_][\d.]+\d[-.][^/ ]+) \((\d+) hits?\)` -/
def re_tarball : RE :=
  rcat [RE.lit '/', RE.star RE.anyc, rstr "/tarball/", RE.star RE.anyc, RE.lit '/',
    RE.group 1 (rcat (rHT ++ [rstr "condor", rclass "-_", rplus rDD, rdig, rclass "-.",
      rplus (RE.cls (fun c => !(c = '/' || c = ' ')))])),
    rstr " (", RE.group 2 (rplus rdig), rstr " hit", ropt (RE.lit 's'), RE.lit ')']

/-- Source `re_src_tarball = /.*/tarball/.*/(h?t?condor_src[-_][\d.]+\d[-.][^/ ]+) \((\d+) hits?\)` -/
def re_src_tarball : RE :=
  rcat [RE.lit '/', RE.star RE.anyc, rstr "/tarball/", RE.star RE.anyc, RE.lit '/',
    RE.group 1 (rcat (rHT ++ [rstr "condor_src", rclass "-_", rplus rDD, rdig, rclass "-.",
      rplus (RE.cls (fun c => !(c = '/' || c = ' ')))])),
    rstr " (", RE.group 2 (rplus rdig), rstr " hit", ropt (RE.lit 's'), RE.lit ')']

/-! ### The ordered classification tables

All patterns below are compiled with `re.IGNORECASE` in the source; since every
pattern is lowercase, this is modelled by lowercasing the subject in
`get_os`/`get_arch`. -/

/-- Table `OS_MAP`, in declaration order. -/
def OS_MAP : List (RE × String) := [
  (rstr "winnt",   "Windows"),
  (rstr "windows", "Windows"),
  (rstr "winn50",  "Windows"),
  (RE.seq (rstr ".deb") RE.eol, "Linux"),
  (rstr "_deb_",   "Linux"),
  (RE.seq (rstr ".rpm") RE.eol, "Linux"),
  (rstr "linux",   "Linux"),
  (rstr "rhel",    "Linux"),
  (rstr "rhap",    "Linux"),
  (rstr "rhas",    "Linux"),
  (rstr "fedora",  "Linux"),
  (rstr "redhat",  "Linux"),
  (rstr "centos",  "Linux"),
  (rstr "ubuntu",  "Linux"),
  (rstr "debian",  "Linux"),
  (rcat [rstr "mac", ropt (RE.lit ' '), rstr "os", ropt (RE.lit ' '), ropt (RE.lit 'x')], "MacOS"),
  (rstr "irix",    "Other"),
  (rstr "dux",     "Other"),
  (rstr "solaris", "Other"),
  (rstr "sun4u_sol_", "Other"),
  (rstr "aix",     "Other"),
  (rstr "hpux",    "Other"),
  (rstr "bsd",     "Other"),
  (rstr "vax-openvms", "Other"),
  (rstr "ydl3",    "Linux"),
  (rstr "yd5",     "Linux"),
  (rstr "all",     "All"),
  (rstr "_sl_",    "Linux"),
  (rstr "sles",    "Linux"),
  (rstr "_sol_",   "Linux"),
  (rcat [rstr ".orig.tar.", rclass "gx", RE.lit 'z'], "Linux"),
  (rcat [rstr "-src.tar.", rclass "gbx", RE.lit 'z', ropt (RE.lit '2')], "All")]

/-- Table `ARCH_MAP`, in declaration order.  Unescaped `.` in `linux-x86.tar` and
`winnt-x86-5.0` really is the any-character regex in the source. -/
def ARCH_MAP : List (RE × String) := [
  (rcat [rstr "linux-x86-", ropt (RE.lit 'g'), rstr "libc"], "x86"),
  (rcat [rstr "linux-x86", RE.anyc, rstr "tar"], "x86"),
  (rstr "linux-x86-redhat", "x86"),
  (rstr "linux-x86-rhel",   "x86"),
  (rstr "linux-x86-debian", "x86"),
  (rcat [rstr "winnt-x86-5", RE.anyc, rstr "0"], "x86"),
  (rstr "amd64",  "x86-64"),
  (rstr "x86_64", "x86-64"),
  (rstr "i386",   "x86"),
  (rstr "i686",   "x86"),
  (rstr "x64",    "x86-64"),
  (rstr "ia64",   "Other"),
  (rstr "ppc64",  "Other"),
  (rstr "sun4u",  "Other"),
  (rstr "sparc",  "Other"),
  (rstr "alpha",  "Other"),
  (rstr "-ppc-",  "Other"),
  (rstr "ppc_aix", "Other"),
  (rstr "hppar",  "Other"),
  (rstr "sgi",    "Other"),
  (rstr "powerpc", "Other"),
  (rstr "vax-openvms", "Other"),
  (rcat [rstr "aix", RE.star RE.anyc, rstr "aix"], "Other"),
  (rstr "x86-dynamic", "x86"),
  (rstr "x86.exe", "x86"),
  (rstr "x86.zip", "x86"),
  (rstr "x86.msi", "x86"),
  (rstr "x86.tar", "x86"),
  (rstr "-all-all", "All"),
  (rstr "-x86_rhap",   "x86"),
  (rstr "-x86_rhas",   "x86"),
  (rstr "-x86_redhat", "x86"),
  (rstr "-x86_deb",    "x86"),
  (rstr "-x86_sl",     "x86"),
  (rstr "-x86_freebsd", "x86"),
  (rstr "-x86_macos",  "x86"),
  (rstr "-x86_centos", "x86"),
  (rstr ".src.",  "All"),
  (RE.seq RE.bol (RE.seq (rstr "all") RE.eol), "All"),
  (rcat [RE.lit '.', RE.alt (rstr "orig") (rstr "debian"), rstr ".tar.", rclass "gx", RE.lit 'z'], "All"),
  (rcat [rstr "-src.tar.", rclass "gbx", RE.lit 'z', ropt (RE.lit '2')], "All")]

/-- The first-match-wins loop shared by `get_os` and `get_arch`. -/
def classify : List (RE × String) → String → String
  | [], _ => "Unknown"
  | p :: rest, tok => if reSearch p.1 tok then p.2 else classify rest tok

/-- Source `get_os(filename)`. -/
def get_os (filename : String) : String := classify OS_MAP (pyLower filename)

/-- Source `get_arch(filename)`. -/
def get_arch (filename : String) : String := classify ARCH_MAP (pyLower filename)

/-! ## Dates

A calendar day is identified with the epoch second of its (UTC) midnight. -/

/-- Days since 1970-01-01 of the civil date `y-m-d` (Hinnant's algorithm,
floor division throughout). -/
def daysFromCivil (y m d : Int) : Int :=
  let y' := y - (if m ≤ 2 then 1 else 0)
  let era := Int.fdiv y' 400
  let yoe := y' - era * 400
  let mp := Int.fmod (m + 9) 12
  let doy := Int.fdiv (153 * mp + 2) 5 + d - 1
  let doe := yoe * 365 + Int.fdiv yoe 4 - Int.fdiv yoe 100 + doy
  era * 146097 + doe - 719468

/-- Python `datetime.fromtimestamp(ts)` truncated to the day, as that day's midnight
epoch second (`datetime(dt.year, dt.month, dt.day)` of the source). -/
def dayStart (ts : Int) : Int := ts - Int.emod ts 86400

/-- Month abbreviations accepted by `%b`. -/
def monthNum (s : String) : Option Int :=
  List.lookup s [("Jan", 1), ("Feb", 2), ("Mar", 3), ("Apr", 4), ("May", 5), ("Jun", 6),
    ("Jul", 7), ("Aug", 8), ("Sep", 9), ("Oct", 10), ("Nov", 11), ("Dec", 12)]

/-- Weekday abbreviations accepted by `%a`. -/
def weekdayNames : List String := ["Mon", "Tue", "Wed", "Thu", "Fri", "Sat", "Sun"]

/-- Day count of month `m` in year `y` (for `datetime`'s validity check). -/
def daysInMonth (y m : Int) : Int :=
  if m = 2 then
    if Int.emod y 4 = 0 ∧ (Int.emod y 100 ≠ 0 ∨ Int.emod y 400 = 0) then 29 else 28
  else if m = 4 ∨ m = 6 ∨ m = 9 ∨ m = 11 then 30
  else 31

/-- A digit token of length between 1 and `maxLen`, valued in `[lo, hi]`. -/
def numTok (s : String) (maxLen : Nat) (lo hi : Int) : Option Int :=
  if s.data.length = 0 ∨ maxLen < s.data.length then none
  else match digitsToNat s.data with
    | none => none
    | some n => if lo ≤ (n : Int) ∧ (n : Int) ≤ hi then some (n : Int) else none

/-- Modelled after `datetime.strptime(s, "%a, %d %b %Y %H")`: an abbreviated
weekday followed by a comma, then day, month name, four-digit year and hour,
with the whole string consumed; an invalid calendar day raises `ValueError`
(`none`).  Returns the (year, month, day) triple, the hour being discarded by
the caller's truncation. -/
def strptimeAWDYH (s : String) : Option (Int × Int × Int) :=
  match splitWS s with
  | [wd, dTok, mTok, yTok, hTok] =>
    match wd.data.getLast? with
    | some ',' =>
      if String.mk wd.data.dropLast ∈ weekdayNames then
        match numTok dTok 2 1 31, monthNum mTok, numTok yTok 4 0 9999, numTok hTok 2 0 23 with
        | some d, some m, some y, some _ =>
          if yTok.data.length = 4 ∧ d ≤ daysInMonth y m then some (y, m, d) else none
        | _, _, _, _ => none
      else none
    | _ => none
  | _ => none

/-! ## Data model -/

/-- The recognised command-line window (`--start`/`--end`, inclusive). -/
structure Args where
  start : Int
  endTs : Int
deriving DecidableEq

/-- A single counted download: date (midnight epoch second), dimension name,
key and weight. -/
structure Event where
  date : Int
  dim : String
  key : String
  weight : Nat
deriving DecidableEq

/-- The Python exceptions the two readers can actually raise per record. -/
inductive PErr where
  | keyError
  | valueError
  | attributeError
deriving DecidableEq

/-- The three-level counter `data[date][dimension][key]` with default 0. -/
def Store := Int → String → String → Nat

/-- The empty `defaultdict` store. -/
def emptyStore : Store := fun _ _ _ => 0

/-- One `data[date][dim][key] += weight` update. -/
def bump (s : Store) (e : Event) : Store := fun d dm k =>
  s d dm k + (if e.date = d ∧ e.dim = dm ∧ e.key = k then e.weight else 0)

/-- Apply a batch of accumulation events to a store, in order. -/
def applyEvents (s : Store) (l : List Event) : Store := l.foldl bump s

/-- The four `+=` statements executed for one decoded record. -/
def emit4 (d : Int) (version vm os arch : String) (w : Nat) : List Event :=
  [⟨d, "version", version, w⟩, ⟨d, "version_major", vm, w⟩,
   ⟨d, "osarch", os ++ "/" ++ arch, w⟩, ⟨d, "os", os, w⟩]

/-- Source `version_major = ".".join(version.split(".")[0:2])`. -/
def major2 (version : String) : String := pyJoin "." ((pySplit version '.').take 2)

/-- Python `int(hits)` for a `(\d+)` capture. -/
def hitsNat (h : String) : Nat := (digitsToNat h.data).getD 0

/-! ## Structured log ingestor (`read_log_file`) -/

/-- The tail of the log-line decode shared after the contents-type routing:
the `match is None` continue, the version-major guard, classification and the
four `+=` emissions. -/
def logDecodeEmit (ts : Int) (f : String) (mo : Option Caps) : Except PErr (List Event) :=
  match mo with
  | none => .ok []
  | some caps =>
    if ¬ pyContains (major2 (getGrp caps 1)) "." = true ∨ (major2 (getGrp caps 1)).data.length < 3 then
      .ok []
    else
      .ok (emit4 (dayStart ts) (getGrp caps 1) (major2 (getGrp caps 1)) (get_os f) (get_arch f) 1)

/-- Decoding of one log line after the window test: status filter, skip-list,
contents-type routing, version check, classification and emission.  Returns
the events the line contributes (`[]` when the line is skipped), or the
exception it raises. -/
def logParseBody (ts : Int) (cols : List String) : Except PErr (List Event) :=
  match cols[1]? with
  | none => .error .keyError
  | some status =>
    if status ≠ "END" then .ok []
    else match cols[2]? with
      | none => .error .keyError
      | some f =>
        if pyContains f "sha256sum" then .ok []
        else if pyStarts f "condordebugsyms" then .ok []
        else if pyStarts f "condor-drone-" then .ok []
        else
          let m : Option Caps :=
            if pyStarts f "condor-" || pyStarts f "htcondor-" then reMatchCaps re_binary f
            else if pyStarts f "condor_src-" || pyStarts f "htcondor_src-" then reMatchCaps re_source f
            else if (reMatchCaps re_binary_deb f).isSome then reMatchCaps re_binary_deb f
            else none
          logDecodeEmit ts f m

/-- One line of `read_log_file`: `line.rstrip().split()` zipped against the
headers (a missing column raises `KeyError` at its first access, a non-integer
timestamp `ValueError`), then the inclusive window test. -/
def logParse (a : Args) (cols : List String) : Except PErr (List Event) :=
  match cols[0]? with
  | none => .error .keyError
  | some t =>
    match pyInt? t with
    | none => .error .valueError
    | some ts => if ts < a.start ∨ a.endTs < ts then .ok [] else logParseBody ts cols

/-- The events contributed by a whole log file, stopping at the first raised
exception as the Python loop would. -/
def logRun (a : Args) : List String → Except PErr (List Event)
  | [] => .ok []
  | l :: ls =>
    match logParse a (splitWS (pyRstrip l)) with
    | .error e => .error e
    | .ok es =>
      match logRun a ls with
      | .error e => .error e
      | .ok es' => .ok (es ++ es')

/-- Source `read_log_file(log_file, data_out, args)`: accumulates the file's events
into the caller's store. -/
def read_log_file (lines : List String) (data_out : Store) (a : Args) : Except PErr Store :=
  (logRun a lines).map (applyEvents data_out)

/-! ## Digest mailbox ingestor (`read_native_file`) -/

/-- The envelope state: last seen (truncated) `Date:` header and whether we
are still inside the header section. -/
structure NMeta where
  date : Option Int
  inHeader : Bool
deriving DecidableEq

/-- The body-line cascade (binary rpm/deb, then source rpm/deb, then
tarballs), given the message's truncated header date.  Pure: no branch of the
cascade can raise. -/
def nativeBodyEvents (d : Int) (line : String) : List Event :=
  let l := pyRstrip line
  if (reMatchCaps re_rpm l).isSome || (reMatchCaps re_deb l).isSome then
    let caps := ((reMatchCaps re_rpm l).orElse (fun _ => reMatchCaps re_deb l)).getD []
    let version := getGrp caps 1
    emit4 d version (major2 version) "Linux" (get_arch (getGrp caps 2)) (hitsNat (getGrp caps 3))
  else if (reMatchCaps re_src_rpm l).isSome || (reMatchCaps re_src_deb l).isSome then
    let caps := ((reMatchCaps re_src_rpm l).orElse (fun _ => reMatchCaps re_src_deb l)).getD []
    let version := getGrp caps 1
    emit4 d version (major2 version) "Linux" "All" (hitsNat (getGrp caps 3))
  else if (reMatchCaps re_tarball l).isSome || (reMatchCaps re_src_tarball l).isSome then
    let caps := ((reMatchCaps re_tarball l).orElse (fun _ => reMatchCaps re_src_tarball l)).getD []
    let filename := getGrp caps 1
    let hits := getGrp caps 2
    if pyContains filename "sha256sum" then []
    else
      let m : Option Caps :=
        if pyStarts filename "condor-" || pyStarts filename "htcondor-" then reMatchCaps re_binary filename
        else if pyStarts filename "condor_src-" || pyStarts filename "htcondor_src-" then reMatchCaps re_source filename
        else if (reMatchCaps re_binary_deb filename).isSome then reMatchCaps re_binary_deb filename
        else if (reMatchCaps re_source_deb filename).isSome then reMatchCaps re_source_deb filename
        else none
      match m with
      | none => []
      | some caps' =>
        let version := getGrp caps' 1
        emit4 d version (major2 version) (get_os filename) (get_arch filename) (hitsNat hits)
  else []

/-- One line of `read_native_file`'s loop: message boundary, corruption check,
`Date:` header (keeping the previous date when `strptime` raises, then
truncating — an `AttributeError` when there is no date at all), header/body
transition, window test, and the path filter guarding the body cascade. -/
def nativeLine (a : Args) (st : NMeta) (line : String) : Except PErr (NMeta × List Event) :=
  if 5 ≤ line.data.length ∧ strTake line 5 = "From " then .ok (⟨none, true⟩, [])
  else if pyContains line "From " then .ok (st, [])
  else if 5 ≤ line.data.length ∧ strTake line 5 = "Date:" then
    let nd : Option Int :=
      match strptimeAWDYH (pyStrip ((pySplit line ':')[1]?.getD "")) with
      | some (y, m, dd) => some (86400 * daysFromCivil y m dd)
      | none => st.date
    match nd with
    | none => .error .attributeError
    | some d0 => .ok (⟨some d0, st.inHeader⟩, [])
  else if st.inHeader ∧ pyStrip line = "" then .ok (⟨st.date, false⟩, [])
  else if st.inHeader then .ok (st, [])
  else
    match st.date with
    | none => .error .attributeError
    | some d =>
      if d < a.start ∨ a.endTs < d then .ok (st, [])
      else if pyStarts line "/" ∧ (pySplit line '/')[1]?.getD "" ∈ (["s", "condor", "htcondor"] : List String) then
        .ok (st, nativeBodyEvents d line)
      else .ok (st, [])

/-- The whole mailbox loop from a given envelope state, collecting emitted
events in order. -/
def nativeRun (a : Args) : NMeta → List String → Except PErr (NMeta × List Event)
  | st, [] => .ok (st, [])
  | st, l :: ls =>
    match nativeLine a st l with
    | .error e => .error e
    | .ok (st', es) =>
      match nativeRun a st' ls with
      | .error e => .error e
      | .ok (st'', es') => .ok (st'', es ++ es')

/-- Source `read_native_file`'s accumulation, generalised to an arbitrary initial
store (the source starts from a fresh `defaultdict`, i.e. `emptyStore`). -/
def read_native_into (data : Store) (lines : List String) (a : Args) : Except PErr Store :=
  (nativeRun a ⟨none, true⟩ lines).map (fun p => applyEvents data p.2)

/-- Source `read_native_file(native_file, args)`. -/
def read_native_file (lines : List String) (a : Args) : Except PErr Store :=
  read_native_into emptyStore lines a

/-! ## Report emitter (`write_csvs`)

Each of the eight CSV tables is, per dimension, a list of rows over the fixed
column list `keys` (the Key Index) with a trailing `Total` cell.  The date
filter reproduces the `date.timestamp() >= args.start and <= args.end` guard,
and the cumulative table accumulates the per-key counters across the retained
dates exactly as `data["cum"]` does in the source. -/

/-- The `write_csvs` in-range test on a (midnight-second) date. -/
def inRangeB (a : Args) (d : Int) : Bool := decide (a.start ≤ d) && decide (d ≤ a.endTs)

/-- The per-key cells of one daily row: `data[date][dim][key]` per column. -/
def dailyCells (data : Store) (dim : String) (keys : List String) (d : Int) : List Nat :=
  keys.map (fun k => data d dim k)

/-- A row is its cells followed by their `Total`. -/
def rowOfCum (cum : List Nat) : List Nat := cum ++ [cum.sum]

/-- The cell lists of the in-range dates, in the given date order. -/
def cellsList (data : Store) (dim : String) (keys : List String) (a : Args) (dates : List Int) : List (List Nat) :=
  (dates.filter (inRangeB a)).map (dailyCells data dim keys)

/-- The daily CSV table (one row per retained date). -/
def dailyRows (data : Store) (dim : String) (keys : List String) (a : Args) (dates : List Int) : List (List Nat) :=
  (cellsList data dim keys a dates).map rowOfCum

/-- Source `data["cum"][...][key] += data[date][...][key]`, per column. -/
def accStep (cum cells : List Nat) : List Nat := List.zipWith (· + ·) cum cells

/-- The cumulative rows produced by folding `accStep` over the retained dates,
emitting each intermediate counter row. -/
def cumRowsAux : List (List Nat) → List Nat → List (List Nat)
  | [], _ => []
  | cells :: rest, cum =>
    let cum' := accStep cum cells
    rowOfCum cum' :: cumRowsAux rest cum'

/-- The cumulative CSV table for one dimension, starting from zero counters. -/
def cumRows (data : Store) (dim : String) (keys : List String) (a : Args) (dates : List Int) : List (List Nat) :=
  cumRowsAux (cellsList data dim keys a dates) (List.replicate keys.length 0)

/-- Column-wise sum of a table's rows. -/
def colSum (n : Nat) (rows : List (List Nat)) : List Nat :=
  rows.foldl accStep (List.replicate n 0)

/-- Source `total_total`: the grand total printed in the prose summary — the sum of
the `os` dimension's daily row totals over the retained dates. -/
def totalTotal (data : Store) (keys : List String) (a : Args) (dates : List Int) : Nat :=
  ((dates.filter (inRangeB a)).map (fun d => (dailyCells data "os" keys d).sum)).sum

/-- Source `dates = list(data.keys()); dates.sort()`: the store's dates (first-touch
order of the events that created them) sorted ascending. -/
def sortedDates (evts : List Event) : List Int :=
  List.insertionSort (· ≤ ·) ((evts.map (fun e => e.date)).dedup)

/-! ## Classifier lemmas -/

/-- Function `classify` returns the label of the first rule whose search succeeds. -/
theorem classify_first : ∀ (rules : List (RE × String)) (tok : String) (i : Nat)
    (hi : i < rules.length),
    reSearch (rules.get ⟨i, hi⟩).1 tok = true →
    (∀ p ∈ rules.take i, reSearch p.1 tok = false) →
    classify rules tok = (rules.get ⟨i, hi⟩).2
  | [], _, i, hi, _, _ => absurd hi (by simp)
  | p :: rest, tok, 0, _, hs, _ => by
    simp only [List.get] at hs ⊢
    simp [classify, hs]
  | p :: rest, tok, i + 1, hi, hs, hpre => by
    have hp : reSearch p.1 tok = false := hpre p (by simp)
    simp only [List.get] at hs ⊢
    simp only [classify, hp, Bool.false_eq_true, if_false]
    exact classify_first rest tok i (by simpa using hi) hs
      (fun q hq => hpre q (by simp [hq]))

/-- When no rule's label is `"Unknown"`, `classify` answers `"Unknown"` exactly
when no rule matches. -/
theorem classify_unknown : ∀ (rules : List (RE × String)) (tok : String),
    (∀ p ∈ rules, p.2 ≠ "Unknown") →
    (classify rules tok = "Unknown" ↔ ∀ p ∈ rules, reSearch p.1 tok = false)
  | [], tok, _ => by simp [classify]
  | p :: rest, tok, hlab => by
    by_cases hp : reSearch p.1 tok = true
    · simp only [classify, hp, if_true]
      constructor
      · intro h; exact absurd h (hlab p (by simp))
      · intro h; exact absurd (h p (by simp)) (by simp [hp])
    · have hp' : reSearch p.1 tok = false := by
        cases hr : reSearch p.1 tok
        · rfl
        · exact absurd hr hp
      simp only [classify, hp', Bool.false_eq_true, if_false]
      rw [classify_unknown rest tok (fun q hq => hlab q (by simp [hq]))]
      constructor
      · intro h q hq
        rcases List.mem_cons.mp hq with hq | hq
        · rw [hq]; exact hp'
        · exact h q hq
      · intro h q hq; exact h q (by simp [hq])

/-- Claim C1: for each dimension, `get_os`/`get_arch` return the label of the
first rule in the declared order whose case-insensitive regex search succeeds
anywhere in the token (so the result is fully determined by declaration order,
and reordering two matching rules changes the result per the new order, the
rule lists being universally quantified in `classify_first`), and they return
`"Unknown"` exactly when no rule of the dimension matches. -/
theorem c1_classify :
    (∀ (f : String) (i : Nat) (hi : i < OS_MAP.length),
        reSearch (OS_MAP.get ⟨i, hi⟩).1 (pyLower f) = true →
        (∀ p ∈ OS_MAP.take i, reSearch p.1 (pyLower f) = false) →
        get_os f = (OS_MAP.get ⟨i, hi⟩).2) ∧
    (∀ f : String, get_os f = "Unknown" ↔ ∀ p ∈ OS_MAP, reSearch p.1 (pyLower f) = false) ∧
    (∀ (f : String) (i : Nat) (hi : i < ARCH_MAP.length),
        reSearch (ARCH_MAP.get ⟨i, hi⟩).1 (pyLower f) = true →
        (∀ p ∈ ARCH_MAP.take i, reSearch p.1 (pyLower f) = false) →
        get_arch f = (ARCH_MAP.get ⟨i, hi⟩).2) ∧
    (∀ f : String, get_arch f = "Unknown" ↔ ∀ p ∈ ARCH_MAP, reSearch p.1 (pyLower f) = false) :=
  ⟨fun f i hi hs hpre => classify_first OS_MAP (pyLower f) i hi hs hpre,
   fun f => classify_unknown OS_MAP (pyLower f) (by decide),
   fun f i hi hs hpre => classify_first ARCH_MAP (pyLower f) i hi hs hpre,
   fun f => classify_unknown ARCH_MAP (pyLower f) (by decide)⟩

/-- Witness for C1 at concrete tokens: rule 1 of `OS_MAP` (`windows`) is the
first OS match for `"Windows"`, rule 7 of `ARCH_MAP` (`x86_64`) the first
architecture match for `"x86_64"`, and a token matching no rule classifies as
`"Unknown"`. -/
theorem c1_witness :
    get_os "Windows" = "Windows" ∧ get_arch "x86_64" = "x86-64" ∧ get_os "qqq" = "Unknown" :=
  ⟨c1_classify.1 "Windows" 1 (by decide) (by decide) (by decide),
   c1_classify.2.2.1 "x86_64" 7 (by decide) (by decide) (by decide),
   (c1_classify.2.1 "qqq").mpr (by decide)⟩

/-! ## Accumulation lemmas -/

/-- The contribution of one event to one cell. -/
def cellWeight (e : Event) (d : Int) (dm k : String) : Nat :=
  if e.date = d ∧ e.dim = dm ∧ e.key = k then e.weight else 0

/-- Pointwise characterisation of event application: each cell receives the sum
of the matching events' weights. -/
theorem applyEvents_cell : ∀ (l : List Event) (s : Store) (d : Int) (dm k : String),
    applyEvents s l d dm k = s d dm k + (l.map (fun e => cellWeight e d dm k)).sum
  | [], s, d, dm, k => by simp [applyEvents]
  | e :: t, s, d, dm, k => by
    have ht := applyEvents_cell t (bump s e) d dm k
    simp only [applyEvents, List.foldl] at ht ⊢
    rw [ht]
    simp only [bump, cellWeight, List.map, List.sum_cons]
    omega

/-- Accumulation commutes across batches of events. -/
theorem applyEvents_comm (s : Store) (l1 l2 : List Event) :
    applyEvents (applyEvents s l1) l2 = applyEvents (applyEvents s l2) l1 := by
  funext d dm k
  rw [applyEvents_cell, applyEvents_cell, applyEvents_cell, applyEvents_cell]
  omega

/-- Accumulation is invariant under permutation of the event sequence. -/
theorem applyEvents_perm (s : Store) (l l' : List Event) (hp : l.Perm l') :
    applyEvents s l = applyEvents s l' := by
  funext d dm k
  rw [applyEvents_cell, applyEvents_cell]
  rw [List.Perm.sum_eq (hp.map (fun e => cellWeight e d dm k))]

/-- Claim C2: whenever both inputs ingest without raising, running the digest
ingestor and the structured-log ingestor in either order over a common store
yields the same final store, and more generally applying the emitted
accumulation events in any interleaving (any permutation) yields the same
store: per-cell accumulation is commutative and associative. -/
theorem c2_commutative :
    (∀ (a : Args) (s : Store) (ll nl : List String),
        (logRun a ll).isOk = true →
        (nativeRun a ⟨none, true⟩ nl).isOk = true →
        (read_native_into s nl a).bind (fun s' => read_log_file ll s' a) =
          (read_log_file ll s a).bind (fun s' => read_native_into s' nl a)) ∧
    (∀ (s : Store) (l l' : List Event), l.Perm l' → applyEvents s l = applyEvents s l') := by
  constructor
  · intro a s ll nl hl hn
    match hLl : logRun a ll with
    | .error e => rw [hLl] at hl; simp [Except.isOk, Except.toBool] at hl
    | .ok el =>
      match hNn : nativeRun a ⟨none, true⟩ nl with
      | .error e => rw [hNn] at hn; simp [Except.isOk, Except.toBool] at hn
      | .ok p =>
        simp only [read_native_into, read_log_file, hLl, hNn, Except.map, Except.bind]
        rw [applyEvents_comm]
  · exact applyEvents_perm

/-- Witness for C2: both orders agree on concrete inputs, and a concrete
two-event transposition leaves the store unchanged. -/
theorem c2_witness :
    ((read_native_into emptyStore [] ⟨0, 0⟩).bind (fun s' => read_log_file [] s' ⟨0, 0⟩) =
      (read_log_file [] emptyStore ⟨0, 0⟩).bind (fun s' => read_native_into s' [] ⟨0, 0⟩)) ∧
    applyEvents emptyStore [⟨0, "os", "Linux", 1⟩, ⟨0, "os", "Windows", 2⟩] =
      applyEvents emptyStore [⟨0, "os", "Windows", 2⟩, ⟨0, "os", "Linux", 1⟩] :=
  ⟨c2_commutative.1 ⟨0, 0⟩ emptyStore [] [] rfl rfl,
   c2_commutative.2 emptyStore _ _ (List.Perm.swap _ _ _)⟩

/-! ## Concrete inputs used by the end-to-end claims -/

/-- A wide concrete window. -/
def a0 : Args := ⟨0, 2000000000⟩

/-- The structured log line of claim C7. -/
def line7 : String := "1551455077\tEND\tcondor-8.9.0-462330-Windows-x64.zip\textra"

/-- The four events C7 expects, dated to the truncated day of `1551455077`. -/
def evts7 : List Event :=
  [⟨1551398400, "version", "8.9.0", 1⟩, ⟨1551398400, "version_major", "8.9", 1⟩,
   ⟨1551398400, "osarch", "Windows/x86-64", 1⟩, ⟨1551398400, "os", "Windows", 1⟩]

/-- Claim C7: the structured log line
`1551455077 END condor-8.9.0-462330-Windows-x64.zip extra`, under any window
covering timestamp 1551455077, yields exactly the four Events
version `8.9.0`, version_major `8.9`, osarch `Windows/x86-64`, os `Windows`,
each of weight 1, dated to the calendar day obtained by truncating that epoch
second. -/
theorem c7_example (a : Args) (h1 : a.start ≤ 1551455077) (h2 : 1551455077 ≤ a.endTs) :
    logRun a [line7] = .ok evts7 ∧ dayStart 1551455077 = 1551398400 := by
  have hw : ¬ ((1551455077 : Int) < a.start ∨ a.endTs < 1551455077) := by
    push_neg; exact ⟨by omega, by omega⟩
  have hp : logParse a (splitWS (pyRstrip line7)) = .ok evts7 := by
    have e1 : logParse a (splitWS (pyRstrip line7)) =
        if (1551455077 : Int) < a.start ∨ a.endTs < 1551455077 then .ok []
        else logParseBody 1551455077 (splitWS (pyRstrip line7)) := rfl
    rw [e1, if_neg hw]
    rfl
  refine ⟨?_, rfl⟩
  simp only [logRun, hp]
  rfl

/-- Witness for C7 at a concrete window. -/
theorem c7_witness : logRun a0 [line7] = .ok evts7 ∧ dayStart 1551455077 = 1551398400 :=
  c7_example a0 (by decide) (by decide)

/-- The digest message of claim C8. -/
def lines8 : List String :=
  ["From mirror", "Date: Sat, 06 Mar 2021 02:30:32 -0600 (CST)", "",
   "/condor/8.9.0/foo/condor-8.9.0-1.x86_64.rpm (12 hits)"]

/-- The four events C8 expects, dated 2021-03-06 and weighted by the 12 hits. -/
def evts8 : List Event :=
  [⟨1614988800, "version", "8.9.0", 12⟩, ⟨1614988800, "version_major", "8.9", 12⟩,
   ⟨1614988800, "osarch", "Linux/x86-64", 12⟩, ⟨1614988800, "os", "Linux", 12⟩]

/-- Claim C8: the digest body line
`/condor/8.9.0/foo/condor-8.9.0-1.x86_64.rpm (12 hits)` inside a message with
header `Date: Sat, 06 Mar 2021 02:30:32 -0600 (CST)`, under any window
covering 2021-03-06, yields the Events version `8.9.0`, version_major `8.9`,
osarch `Linux/x86-64` (os `Linux`, arch `x86-64`), each of weight 12, dated
2021-03-06 (midnight epoch second `86400 * daysFromCivil 2021 3 6`). -/
theorem c8_example (a : Args) (h1 : a.start ≤ 86400 * daysFromCivil 2021 3 6)
    (h2 : 86400 * daysFromCivil 2021 3 6 ≤ a.endTs) :
    nativeRun a ⟨none, true⟩ lines8 = .ok (⟨some 1614988800, false⟩, evts8) ∧
      (86400 * daysFromCivil 2021 3 6 : Int) = 1614988800 := by
  have hd : (86400 * daysFromCivil 2021 3 6 : Int) = 1614988800 := by decide
  rw [hd] at h1 h2
  have hw : ¬ ((1614988800 : Int) < a.start ∨ a.endTs < 1614988800) := by
    push_neg; exact ⟨by omega, by omega⟩
  have s1 : nativeLine a ⟨none, true⟩ "From mirror" = .ok (⟨none, true⟩, []) := rfl
  have s2 : nativeLine a ⟨none, true⟩ "Date: Sat, 06 Mar 2021 02:30:32 -0600 (CST)" =
      .ok (⟨some 1614988800, true⟩, []) := rfl
  have s3 : nativeLine a ⟨some 1614988800, true⟩ "" = .ok (⟨some 1614988800, false⟩, []) := rfl
  have s4 : nativeLine a ⟨some 1614988800, false⟩
      "/condor/8.9.0/foo/condor-8.9.0-1.x86_64.rpm (12 hits)" =
      .ok (⟨some 1614988800, false⟩, evts8) := by
    have e1 : nativeLine a ⟨some 1614988800, false⟩
        "/condor/8.9.0/foo/condor-8.9.0-1.x86_64.rpm (12 hits)" =
        if (1614988800 : Int) < a.start ∨ a.endTs < 1614988800 then
          .ok (⟨some 1614988800, false⟩, [])
        else if pyStarts "/condor/8.9.0/foo/condor-8.9.0-1.x86_64.rpm (12 hits)" "/" ∧
            (pySplit "/condor/8.9.0/foo/condor-8.9.0-1.x86_64.rpm (12 hits)" '/')[1]?.getD "" ∈
              (["s", "condor", "htcondor"] : List String) then
          .ok (⟨some 1614988800, false⟩,
            nativeBodyEvents 1614988800 "/condor/8.9.0/foo/condor-8.9.0-1.x86_64.rpm (12 hits)")
        else .ok (⟨some 1614988800, false⟩, []) := rfl
    rw [e1, if_neg hw, if_pos (by decide)]
    rfl
  refine ⟨?_, hd⟩
  simp only [lines8, nativeRun, s1, s2, s3, s4]
  rfl

/-- Witness for C8 at a concrete window. -/
theorem c8_witness :
    nativeRun a0 ⟨none, true⟩ lines8 = .ok (⟨some 1614988800, false⟩, evts8) ∧
      (86400 * daysFromCivil 2021 3 6 : Int) = 1614988800 :=
  c8_example a0 (by decide) (by decide)

/-! ## Claim C10: an in-window event whose truncated day precedes the window -/

/-- A window starting mid-day: 1551398450 is 50 seconds past midnight
1551398400. -/
def a10 : Args := ⟨1551398450, 1551500000⟩

/-- A structured log line whose timestamp 1551398500 lies inside the window. -/
def line10 : String := "1551398500 END condor-8.9.0-462330-Windows-x64.zip"

/-- The events that line contributes, dated to midnight 1551398400. -/
def evts10 : List Event :=
  [⟨1551398400, "version", "8.9.0", 1⟩, ⟨1551398400, "version_major", "8.9", 1⟩,
   ⟨1551398400, "osarch", "Windows/x86-64", 1⟩, ⟨1551398400, "os", "Windows", 1⟩]

/-- Claim C10: for the window `a10`, whose start is not a day's midnight, the
event at timestamp 1551398500 lies inside the inclusive window and is
accumulated into the store under its truncated calendar day 1551398400, yet
the report emitter omits that day's row from every daily and cumulative CSV
table and excludes its counts from the summary's grand total, because the
truncated day's midnight is earlier than the window start. -/
theorem c10_window :
    logRun a10 [line10] = .ok evts10 ∧
    (a10.start ≤ 1551398500 ∧ (1551398500 : Int) ≤ a10.endTs) ∧
    dayStart 1551398500 = 1551398400 ∧
    dayStart 1551398500 < a10.start ∧
    applyEvents emptyStore evts10 1551398400 "os" "Windows" = 1 ∧
    sortedDates evts10 = [1551398400] ∧
    (∀ (dim : String) (keys : List String),
      dailyRows (applyEvents emptyStore evts10) dim keys a10 (sortedDates evts10) = []) ∧
    (∀ (dim : String) (keys : List String),
      cumRows (applyEvents emptyStore evts10) dim keys a10 (sortedDates evts10) = []) ∧
    (∀ keys : List String,
      totalTotal (applyEvents emptyStore evts10) keys a10 (sortedDates evts10) = 0) := by
  have hfilter : (sortedDates evts10).filter (inRangeB a10) = [] := by decide
  refine ⟨rfl, by decide, rfl, by decide, rfl, by decide, ?_, ?_, ?_⟩
  · intro dim keys
    simp [dailyRows, cellsList, hfilter]
  · intro dim keys
    simp [cumRows, cellsList, hfilter, cumRowsAux]
  · intro keys
    simp [totalTotal, hfilter]

/-! ## Claim C4: per-record recovery -/

/-- Counterexample for C4: a mailbox whose first message carries a malformed
`Date:` header makes the run abort with an `AttributeError` (the source
truncates `date` unconditionally after the failed parse, and `date` is still
`None`), so a per-record problem is not recovered and the run does not
complete even though the input was openable. -/
theorem c4_cex : read_native_file ["From a", "Date: garbage"] a0 = .error .attributeError := rfl

/-- Claim C4 as amended: a malformed `Date:` header is recovered — parsing
continues with the most recently seen date — only when some date has already
been parsed in the file; with no previously seen date the run aborts (and a
malformed structured-log row likewise aborts `read_log_file`). -/
theorem c4_amended (a : Args) (st : NMeta) (line : String) (d : Int)
    (hd : st.date = some d)
    (hDate : strTake line 5 = "Date:")
    (hFrom : pyContains line "From " = false)
    (hBad : strptimeAWDYH (pyStrip ((pySplit line ':')[1]?.getD "")) = none) :
    nativeLine a st line = .ok (⟨some d, st.inHeader⟩, []) := by
  have hlen : 5 ≤ line.data.length := by
    have h5 : (line.data.take 5).length = 5 := by
      have := congrArg (fun s : String => s.data.length) hDate
      simpa [strTake] using this
    rw [List.length_take] at h5
    omega
  have hne : ¬ (5 ≤ line.data.length ∧ strTake line 5 = "From ") := by
    rintro ⟨-, hf⟩
    rw [hDate] at hf
    exact absurd hf (by decide)
  unfold nativeLine
  rw [if_neg hne, if_neg (by simp [hFrom]), if_pos ⟨hlen, hDate⟩, hBad, hd]

/-- Witness for C4 as amended: with a date already on record, a garbage
`Date:` header is ignored and processing continues. -/
theorem c4_witness :
    nativeLine a0 ⟨some 0, true⟩ "Date: garbage" = .ok (⟨some 0, true⟩, []) :=
  c4_amended a0 ⟨some 0, true⟩ "Date: garbage" 0 rfl rfl rfl rfl

/-! ## Claim C9: the checksum / debug-symbol / drone skip-list -/

/-- The digest message whose rpm line's basename contains `sha256sum`. -/
def lines9 : List String :=
  ["From a", "Date: Sat, 06 Mar 2021 02:30:32 -0600 (CST)", "",
   "/condor/a/condor-8.9.0-1.sha256sum.x86_64.rpm (2 hits)"]

/-- The events that message nevertheless contributes. -/
def evts9 : List Event :=
  [⟨1614988800, "version", "8.9.0", 2⟩, ⟨1614988800, "version_major", "8.9", 2⟩,
   ⟨1614988800, "osarch", "Linux/x86-64", 2⟩, ⟨1614988800, "os", "Linux", 2⟩]

/-- Counterexample for C9: in the digest format the RPM/deb branches apply no
checksum filter, so a path whose filename contains `sha256sum` is decoded and
contributes weight-2 events to the store. -/
theorem c9_cex :
    pyContains "condor-8.9.0-1.sha256sum.x86_64.rpm" "sha256sum" = true ∧
    nativeRun a0 ⟨none, true⟩ lines9 = .ok (⟨some 1614988800, false⟩, evts9) ∧
    applyEvents emptyStore evts9 1614988800 "os" "Linux" = 2 :=
  ⟨rfl, rfl, rfl⟩

/-- Claim C9 as amended: in the structured-log format a filename containing
`sha256sum` or starting with `condordebugsyms` or `condor-drone-` is never
decoded and contributes zero Events; the digest format only applies the
`sha256sum` filter inside the tarball branch, so such filenames can still be
counted through the RPM/deb package branches. -/
theorem c9_amended (a : Args) (cols : List String) (f : String)
    (hf : cols[2]? = some f)
    (hbad : pyContains f "sha256sum" = true ∨ pyStarts f "condordebugsyms" = true ∨
      pyStarts f "condor-drone-" = true) :
    logParse a cols = .ok [] ∨ ∃ err, logParse a cols = .error err := by
  unfold logParse
  split
  · exact Or.inr ⟨_, rfl⟩
  · split
    · exact Or.inr ⟨_, rfl⟩
    · split
      · exact Or.inl rfl
      · unfold logParseBody
        split
        · exact Or.inr ⟨_, rfl⟩
        · split
          · exact Or.inl rfl
          · rw [hf]
            by_cases h1 : pyContains f "sha256sum" = true
            · simp [h1]
            · by_cases h2 : pyStarts f "condordebugsyms" = true
              · simp [h1, h2]
              · by_cases h3 : pyStarts f "condor-drone-" = true
                · simp [h1, h2, h3]
                · rcases hbad with hb | hb | hb
                  · exact absurd hb h1
                  · exact absurd hb h2
                  · exact absurd hb h3

/-- Witness for C9 as amended: a `condor-drone-` download line in the
structured log contributes nothing. -/
theorem c9_witness :
    logParse a0 ["1551455077", "END", "condor-drone-8.9.0.tar.gz"] = .ok [] ∨
      ∃ err, logParse a0 ["1551455077", "END", "condor-drone-8.9.0.tar.gz"] = .error err :=
  c9_amended a0 ["1551455077", "END", "condor-drone-8.9.0.tar.gz"]
    "condor-drone-8.9.0.tar.gz" rfl (Or.inr (Or.inr rfl))

/-! ## Shape of the structured-log emission -/

/-- Shape of the decode-emit tail: skip, or the four events of one record
guarded by the version-major check. -/
theorem logDecodeEmit_shape (ts : Int) (f : String) (mo : Option Caps) (es : List Event)
    (h : logDecodeEmit ts f mo = .ok es) :
    es = [] ∨ ∃ version : String,
      es = emit4 (dayStart ts) version (major2 version) (get_os f) (get_arch f) 1 ∧
      pyContains (major2 version) "." = true ∧ 3 ≤ (major2 version).data.length := by
  cases mo with
  | none => left; cases h; rfl
  | some caps =>
    simp only [logDecodeEmit] at h
    split at h
    · left; cases h; rfl
    · rename_i hguard
      right
      refine ⟨getGrp caps 1, by cases h; rfl, ?_, ?_⟩
      · rcases not_or.mp hguard with ⟨hc, -⟩
        simpa using hc
      · rcases not_or.mp hguard with ⟨-, hl⟩
        omega

/-- Every successful `logParse` either skips the line or emits exactly the
four weight-1 events of one decoded record whose `version_major` passed the
source's `"." in vm and len(vm) >= 3` guard. -/
theorem logParse_shape (a : Args) (cols : List String) (es : List Event)
    (h : logParse a cols = .ok es) :
    es = [] ∨ ∃ (ts : Int) (version f : String),
      es = emit4 (dayStart ts) version (major2 version) (get_os f) (get_arch f) 1 ∧
      pyContains (major2 version) "." = true ∧ 3 ≤ (major2 version).data.length := by
  unfold logParse at h
  split at h
  · cases h
  · split at h
    · cases h
    · split at h
      · left; cases h; rfl
      · unfold logParseBody at h
        split at h
        · cases h
        · split at h
          · left; cases h; rfl
          · split at h
            · cases h
            · split at h
              · left; cases h; rfl
              · split at h
                · left; cases h; rfl
                · split at h
                  · left; cases h; rfl
                  · rcases logDecodeEmit_shape _ _ _ es h with he | ⟨version, he, hc, hl⟩
                    · exact Or.inl he
                    · exact Or.inr ⟨_, version, _, he, hc, hl⟩

/-! ## Claim C3: version validation -/

/-- The digest message whose rpm carries the single-component version `89`. -/
def lines3 : List String :=
  ["From a", "Date: Sat, 06 Mar 2021 02:30:32 -0600 (CST)", "",
   "/condor/a/condor-89-1.x86_64.rpm (3 hits)"]

/-- The events that message contributes: `version_major` is `89`, a single
dot-separated component. -/
def evts3 : List Event :=
  [⟨1614988800, "version", "89", 3⟩, ⟨1614988800, "version_major", "89", 3⟩,
   ⟨1614988800, "osarch", "Linux/x86-64", 3⟩, ⟨1614988800, "os", "Linux", 3⟩]

/-- Counterexample for C3: the digest ingestor performs no version validation,
so the record with captured version `89` — fewer than two dot-separated
components — is not dropped: it stores a `version_major` key consisting of a
single numeric component. -/
theorem c3_cex :
    nativeRun a0 ⟨none, true⟩ lines3 = .ok (⟨some 1614988800, false⟩, evts3) ∧
    pySplit "89" '.' = ["89"] ∧
    applyEvents emptyStore evts3 1614988800 "version_major" "89" = 3 :=
  ⟨rfl, rfl, rfl⟩

/-- Claim C3 as amended: only the structured-log ingestor validates versions,
and its check is exactly the source's `"." in version_major and
len(version_major) >= 3`: every `version_major` key it stores contains a dot
and has at least three characters (its components need not be numeric); the
digest ingestor stores whatever the version capture produced. -/
theorem c3_amended (a : Args) (cols : List String) (es : List Event) (e : Event)
    (h : logParse a cols = .ok es) (he : e ∈ es) (hd : e.dim = "version_major") :
    pyContains e.key "." = true ∧ 3 ≤ e.key.data.length := by
  rcases logParse_shape a cols es h with rfl | ⟨ts, version, f, rfl, hc, hl⟩
  · cases he
  · simp only [emit4, List.mem_cons, List.not_mem_nil, or_false] at he
    rcases he with rfl | rfl | rfl | rfl
    · simp at hd
    · exact ⟨hc, hl⟩
    · simp at hd
    · simp at hd

/-- Witness for C3 as amended, at the C7 log line whose stored
`version_major` is `8.9`. -/
theorem c3_witness : pyContains "8.9" "." = true ∧ 3 ≤ ("8.9" : String).data.length :=
  c3_amended a0 (splitWS (pyRstrip line7)) evts7 ⟨1551398400, "version_major", "8.9", 1⟩
    rfl (by decide) rfl

/-! ## Claim C5: event weights -/

/-- The digest message reporting zero hits. -/
def lines5 : List String :=
  ["From a", "Date: Sat, 06 Mar 2021 02:30:32 -0600 (CST)", "",
   "/condor/8.9.0/foo/condor-8.9.0-1.x86_64.rpm (0 hits)"]

/-- The weight-0 events that message emits. -/
def evts5 : List Event :=
  [⟨1614988800, "version", "8.9.0", 0⟩, ⟨1614988800, "version_major", "8.9", 0⟩,
   ⟨1614988800, "osarch", "Linux/x86-64", 0⟩, ⟨1614988800, "os", "Linux", 0⟩]

/-- Counterexample for C5: a digest line `... (0 hits)` emits events of weight
0, which is not a positive integer. -/
theorem c5_cex :
    nativeRun a0 ⟨none, true⟩ lines5 = .ok (⟨some 1614988800, false⟩, evts5) ∧
    (⟨1614988800, "version", "8.9.0", 0⟩ : Event) ∈ evts5 :=
  ⟨rfl, by decide⟩

/-- Claim C5 as amended: every structured-log event has weight exactly 1, but
a digest event's weight is the parsed hit count, a nonnegative integer that
can be 0. -/
theorem c5_amended :
    (∀ (a : Args) (cols : List String) (es : List Event) (e : Event),
        logParse a cols = .ok es → e ∈ es → e.weight = 1) ∧
    (nativeRun a0 ⟨none, true⟩ lines5 = .ok (⟨some 1614988800, false⟩, evts5) ∧
      (⟨1614988800, "version", "8.9.0", 0⟩ : Event) ∈ evts5) := by
  constructor
  · intro a cols es e h he
    rcases logParse_shape a cols es h with rfl | ⟨ts, version, f, rfl, -, -⟩
    · cases he
    · simp only [emit4, List.mem_cons, List.not_mem_nil, or_false] at he
      rcases he with rfl | rfl | rfl | rfl <;> rfl
  · exact ⟨rfl, by decide⟩

/-- Witness for C5 as amended, at the C7 log line. -/
theorem c5_witness : (⟨1551398400, "version", "8.9.0", 1⟩ : Event).weight = 1 :=
  c5_amended.1 a0 (splitWS (pyRstrip line7)) evts7 ⟨1551398400, "version", "8.9.0", 1⟩
    rfl (by decide)

/-! ## Cumulative-table lemmas -/

/-- Cell-wise value of one accumulation step. -/
theorem getD_accStep : ∀ (cum cells : List Nat), cells.length = cum.length → ∀ c : Nat,
    (accStep cum cells).getD c 0 = cum.getD c 0 + cells.getD c 0
  | [], [], _, c => by simp [accStep]
  | [], _ :: _, h, _ => absurd h (by simp)
  | _ :: _, [], h, _ => absurd h (by simp)
  | x :: xs, y :: ys, h, 0 => by simp [accStep]
  | x :: xs, y :: ys, h, c + 1 => by
    simp only [accStep, List.zipWith_cons_cons, List.getD_cons_succ]
    exact getD_accStep xs ys (by simpa using h) c

/-- Row total of one accumulation step. -/
theorem sum_accStep : ∀ (cum cells : List Nat), cells.length = cum.length →
    (accStep cum cells).sum = cum.sum + cells.sum
  | [], [], _ => by simp [accStep]
  | [], _ :: _, h => absurd h (by simp)
  | _ :: _, [], h => absurd h (by simp)
  | x :: xs, y :: ys, h => by
    simp only [accStep, List.zipWith_cons_cons, List.sum_cons]
    have hs := sum_accStep xs ys (by simpa using h)
    simp only [accStep] at hs
    omega

/-- Accumulation preserves the column count. -/
theorem accStep_length (cum cells : List Nat) (h : cells.length = cum.length) :
    (accStep cum cells).length = cum.length := by
  simp [accStep, h]

/-- One cumulative row per retained date. -/
theorem cumRowsAux_length : ∀ (cl : List (List Nat)) (cum : List Nat),
    (cumRowsAux cl cum).length = cl.length
  | [], _ => rfl
  | _ :: rest, cum => by simp [cumRowsAux, cumRowsAux_length rest]

/-- The i-th cumulative row is the accumulated prefix of cell rows, with its
total appended. -/
theorem cumRowsAux_get : ∀ (cl : List (List Nat)) (cum : List Nat) (i : Nat)
    (hi : i < (cumRowsAux cl cum).length),
    (cumRowsAux cl cum).get ⟨i, hi⟩ = rowOfCum (List.foldl accStep cum (cl.take (i + 1)))
  | [], cum, i, hi => by simp [cumRowsAux] at hi
  | cells :: rest, cum, 0, hi => by simp [cumRowsAux, List.take, List.foldl]
  | cells :: rest, cum, i + 1, hi => by
    simp only [cumRowsAux, List.get]
    rw [cumRowsAux_get rest (accStep cum cells) i (by simpa [cumRowsAux] using hi)]
    simp [List.take, List.foldl]

/-- Folding accumulation steps preserves the column count. -/
theorem foldl_accStep_length : ∀ (cl : List (List Nat)) (cum : List Nat),
    (∀ r ∈ cl, r.length = cum.length) →
    (List.foldl accStep cum cl).length = cum.length
  | [], _, _ => rfl
  | cells :: rest, cum, h => by
    have h1 : cells.length = cum.length := h cells (by simp)
    have h2 := foldl_accStep_length rest (accStep cum cells)
      (fun r hr => by rw [accStep_length cum cells h1]; exact h r (by simp [hr]))
    simpa [List.foldl, accStep_length cum cells h1] using h2

/-- Folding further accumulation steps never decreases a cell. -/
theorem getD_le_foldl_accStep : ∀ (cl : List (List Nat)) (cum : List Nat),
    (∀ r ∈ cl, r.length = cum.length) → ∀ c : Nat,
    cum.getD c 0 ≤ (List.foldl accStep cum cl).getD c 0
  | [], _, _, _ => le_refl _
  | cells :: rest, cum, h, c => by
    have h1 : cells.length = cum.length := h cells (by simp)
    have step : cum.getD c 0 ≤ (accStep cum cells).getD c 0 := by
      rw [getD_accStep cum cells h1 c]; omega
    have ih := getD_le_foldl_accStep rest (accStep cum cells)
      (fun r hr => by rw [accStep_length cum cells h1]; exact h r (by simp [hr])) c
    exact le_trans step ih

/-- Cell-wise domination implies row-total domination (equal lengths). -/
theorem sum_le_of_getD : ∀ (u v : List Nat), u.length = v.length →
    (∀ c, u.getD c 0 ≤ v.getD c 0) → u.sum ≤ v.sum
  | [], [], _, _ => le_refl _
  | [], _ :: _, h, _ => absurd h (by simp)
  | _ :: _, [], h, _ => absurd h (by simp)
  | x :: xs, y :: ys, h, hp => by
    simp only [List.sum_cons]
    have h0 := hp 0
    simp only [List.getD_cons_zero] at h0
    have ht := sum_le_of_getD xs ys (by simpa using h)
      (fun c => by have hc := hp (c + 1); simpa [List.getD_cons_succ] using hc)
    omega

/-- Cells of a row with its total appended. -/
theorem getD_append_sing : ∀ (u : List Nat) (x : Nat) (c : Nat),
    (u ++ [x]).getD c 0 = if c < u.length then u.getD c 0 else if c = u.length then x else 0
  | [], x, 0 => by simp
  | [], x, c + 1 => by simp
  | q :: qs, x, 0 => by simp
  | q :: qs, x, c + 1 => by
    simp only [List.cons_append, List.getD_cons_succ, List.length_cons]
    rw [getD_append_sing qs x c]
    by_cases h1 : c < qs.length
    · simp [h1, Nat.succ_lt_succ h1]
    · by_cases h2 : c = qs.length
      · have hn1 : ¬ c + 1 < qs.length + 1 := by omega
        simp [h1, h2, hn1]
      · have hn1 : ¬ c + 1 < qs.length + 1 := by omega
        have hn2 : ¬ c + 1 = qs.length + 1 := by omega
        simp [h1, h2, hn1, hn2]

/-- Cell-wise domination extends from counters to full rows (counters plus
total column). -/
theorem rowOfCum_mono (u v : List Nat) (h : u.length = v.length)
    (hp : ∀ c, u.getD c 0 ≤ v.getD c 0) :
    ∀ c, (rowOfCum u).getD c 0 ≤ (rowOfCum v).getD c 0 := by
  intro c
  rw [rowOfCum, rowOfCum, getD_append_sing, getD_append_sing, ← h]
  by_cases h1 : c < u.length
  · simp only [h1, if_true]
    exact hp c
  · by_cases h2 : c = u.length
    · subst h2
      simp only [Nat.lt_irrefl, if_false, if_pos rfl]
      exact sum_le_of_getD u v h hp
    · simp [h1, h2]

/-- Accumulating full rows (with totals) is accumulating the counters and
appending the accumulated total. -/
theorem accStep_rowOfCum (cum r : List Nat) (h : r.length = cum.length) :
    accStep (rowOfCum cum) (rowOfCum r) = rowOfCum (accStep cum r) := by
  simp only [accStep, rowOfCum]
  rw [List.zipWith_append _ _ _ _ _ h.symm]
  have hs := sum_accStep cum r h
  simp only [accStep] at hs
  simp [hs]

/-- Folding accumulation over full rows equals accumulating the counters and
appending the total. -/
theorem foldl_accStep_rowOfCum : ∀ (cl : List (List Nat)) (cum : List Nat),
    (∀ r ∈ cl, r.length = cum.length) →
    List.foldl accStep (rowOfCum cum) (cl.map rowOfCum) =
      rowOfCum (List.foldl accStep cum cl)
  | [], _, _ => rfl
  | cells :: rest, cum, h => by
    have h1 : cells.length = cum.length := h cells (by simp)
    simp only [List.map, List.foldl]
    rw [accStep_rowOfCum cum cells h1]
    exact foldl_accStep_rowOfCum rest (accStep cum cells)
      (fun r hr => by rw [accStep_length cum cells h1]; exact h r (by simp [hr]))

/-- The zero row with its (zero) total. -/
theorem rowOfCum_replicate_zero (n : Nat) :
    rowOfCum (List.replicate n 0) = List.replicate (n + 1) 0 := by
  simp [rowOfCum, List.sum_replicate, List.replicate_succ']

/-- Rows of `cellsList` all have one cell per key. -/
theorem cellsList_mem_length (data : Store) (dim : String) (keys : List String)
    (a : Args) (dates : List Int) :
    ∀ r ∈ cellsList data dim keys a dates, r.length = keys.length := by
  intro r hr
  simp only [cellsList, List.mem_map] at hr
  rcases hr with ⟨d, -, rfl⟩
  simp [dailyCells]

/-- Claim C6: in the cumulative CSV table of any dimension, every column
(including the `Total` column) is non-decreasing across rows in the emitted
date order, and the last cumulative row equals the column-wise sum of all
rows of the corresponding daily table. -/
theorem c6_cumulative (data : Store) (dim : String) (keys : List String) (a : Args)
    (dates : List Int) :
    (∀ (i j : Nat) (hi : i < (cumRows data dim keys a dates).length)
        (hj : j < (cumRows data dim keys a dates).length), i ≤ j → ∀ c : Nat,
        ((cumRows data dim keys a dates).get ⟨i, hi⟩).getD c 0 ≤
          ((cumRows data dim keys a dates).get ⟨j, hj⟩).getD c 0) ∧
    (∀ h : cumRows data dim keys a dates ≠ [],
        (cumRows data dim keys a dates).getLast h =
          colSum (keys.length + 1) (dailyRows data dim keys a dates)) := by
  have hmem : ∀ r ∈ cellsList data dim keys a dates,
      r.length = (List.replicate keys.length (0 : Nat)).length := by
    intro r hr
    rw [List.length_replicate]
    exact cellsList_mem_length data dim keys a dates r hr
  constructor
  · intro i j hi hj hij c
    show ((cumRowsAux (cellsList data dim keys a dates) (List.replicate keys.length 0)).get
        ⟨i, hi⟩).getD c 0 ≤
      ((cumRowsAux (cellsList data dim keys a dates) (List.replicate keys.length 0)).get
        ⟨j, hj⟩).getD c 0
    rw [cumRowsAux_get _ _ i hi, cumRowsAux_get _ _ j hj]
    have hsplit : (cellsList data dim keys a dates).take (j + 1) =
        (cellsList data dim keys a dates).take (i + 1) ++
          (((cellsList data dim keys a dates).drop (i + 1)).take (j - i)) := by
      rw [← List.take_add]
      congr 1
      omega
    rw [hsplit, List.foldl_append]
    have hmemtake : ∀ r ∈ (cellsList data dim keys a dates).take (i + 1),
        r.length = (List.replicate keys.length (0 : Nat)).length :=
      fun r hr => hmem r (List.mem_of_mem_take hr)
    have hleni : (List.foldl accStep (List.replicate keys.length 0)
        ((cellsList data dim keys a dates).take (i + 1))).length =
        (List.replicate keys.length (0 : Nat)).length :=
      foldl_accStep_length _ _ hmemtake
    have hmemseg : ∀ r ∈ ((cellsList data dim keys a dates).drop (i + 1)).take (j - i),
        r.length = (List.foldl accStep (List.replicate keys.length 0)
          ((cellsList data dim keys a dates).take (i + 1))).length := by
      intro r hr
      rw [hleni]
      exact hmem r (List.mem_of_mem_drop (List.mem_of_mem_take hr))
    apply rowOfCum_mono
    · rw [hleni, foldl_accStep_length _ _ hmemseg, hleni]
    · intro c'
      exact getD_le_foldl_accStep _ _ hmemseg c'
  · intro hne
    have hpos : 0 < (cumRows data dim keys a dates).length := List.length_pos.mpr hne
    have hrfl : (cumRows data dim keys a dates).length =
        (cumRowsAux (cellsList data dim keys a dates) (List.replicate keys.length 0)).length :=
      rfl
    rw [List.getLast_eq_get]
    have hidx : (cumRows data dim keys a dates).length - 1 <
        (cumRowsAux (cellsList data dim keys a dates) (List.replicate keys.length 0)).length := by
      omega
    show (cumRowsAux (cellsList data dim keys a dates) (List.replicate keys.length 0)).get
        ⟨(cumRows data dim keys a dates).length - 1, hidx⟩ =
      colSum (keys.length + 1) (dailyRows data dim keys a dates)
    rw [cumRowsAux_get _ _ _ hidx]
    have h1 : (cumRows data dim keys a dates).length =
        (cellsList data dim keys a dates).length :=
      hrfl.trans (cumRowsAux_length _ _)
    have htake : (cellsList data dim keys a dates).take
        ((cumRows data dim keys a dates).length - 1 + 1) = cellsList data dim keys a dates := by
      rw [h1, Nat.sub_add_cancel (by rw [← h1]; exact hpos)]
      exact List.take_length _
    rw [htake]
    unfold colSum dailyRows
    rw [← rowOfCum_replicate_zero keys.length]
    exact (foldl_accStep_rowOfCum _ _ hmem).symm

/-- A concrete two-day, one-key store for the C6 witness. -/
def c6Data : Store :=
  applyEvents emptyStore [⟨0, "os", "Linux", 2⟩, ⟨86400, "os", "Linux", 3⟩]

/-- Witness for C6 on a concrete table: the first cumulative cell is below the
second, and the last cumulative row is the column-wise sum of the daily
table. -/
theorem c6_witness :
    ((cumRows c6Data "os" ["Linux"] ⟨0, 100000⟩ [0, 86400]).get ⟨0, by decide⟩).getD 0 0 ≤
      ((cumRows c6Data "os" ["Linux"] ⟨0, 100000⟩ [0, 86400]).get ⟨1, by decide⟩).getD 0 0 ∧
    (cumRows c6Data "os" ["Linux"] ⟨0, 100000⟩ [0, 86400]).getLast (by decide) =
      colSum 2 (dailyRows c6Data "os" ["Linux"] ⟨0, 100000⟩ [0, 86400]) :=
  ⟨(c6_cumulative c6Data "os" ["Linux"] ⟨0, 100000⟩ [0, 86400]).1 0 1 (by decide) (by decide)
      (by omega) 0,
   (c6_cumulative c6Data "os" ["Linux"] ⟨0, 100000⟩ [0, 86400]).2 (by decide)⟩
